import Mathlib

/-!
Shallow embedding of the quiz-platform core (Django app `quiz`):
data model from `src/quiz/models.py`, operations from `src/quiz/views.py`.

Conventions of the embedding:
* Database rows become structures; the whole store is a `DB` of row lists,
  kept in insertion order (auto-increment primary keys are modelled by
  `nextAttemptId` / `nextAnswerId`, one beyond the current maximum).
* A Django queryset `filter(...)`/`get(...)`/`order_by('id')` becomes
  `List.filter` / `List.find?` / sorting by id.
* The many-to-many `Answer.selected_options` is a `Finset Nat` of Option
  ids (Django m2m ignores duplicate adds, and Python `set` comparison of
  model objects is comparison of their primary keys).
* Timestamps (`answered_at`, `started_at`, `completed_at`) carry no logic
  beyond null-ness, so `completed_at` is modelled as a `Bool`.
* Exact rational arithmetic stands in for Python floats; `round(x, 2)`
  is modelled as round-half-to-even at two decimal places.  The `score`
  column is declared `IntegerField` (models.py:72), so saving an attempt
  row goes through `saveAttempt`, which truncates the score to an
  integer the way Django's `get_prep_value` applies Python's `int()`.
* `random.sample(pool, n)` is a function parameter of `start_quiz`;
  `SampleSpec` records the guarantee the library call provides (length
  `n`, pairwise-distinct picks, all drawn from the pool).
-/

namespace Quiz

/-- Row of `quiz.models.Option` (named `MCOption` here because `Option`
is taken by Lean's core type): option id, owning question, correctness
flag.  The display text carries no logic and is omitted. -/
structure MCOption where
  id : Nat
  question_id : Nat
  is_correct : Bool
deriving DecidableEq

/-- Row of `quiz.models.Question`: id, owning category, question type
(the string `single` or `multiple`), and the soft-delete flag. -/
structure Question where
  id : Nat
  category_id : Nat
  question_type : String
  is_deleted : Bool
deriving DecidableEq

/-- Row of `quiz.models.Category`. -/
structure Category where
  id : Nat
  name : String
deriving DecidableEq

/-- Row of `quiz.models.QuizAttempt`.  `score` is null until submission;
the column is declared `IntegerField` (models.py:72), and every value
reaching the stored row passes through `saveAttempt`, which applies the
integer truncation Django performs on write-back — the rational field
type merely lets the same structure carry `submit_quiz`'s in-memory
pre-save value.  `completed` models the null-ness of `completed_at`. -/
structure QuizAttempt where
  id : Nat
  user_id : Nat
  category_id : Nat
  total_questions : Nat
  passing_score : Int
  time_limit : Int
  score : Option ℚ
  passed : Bool
  completed : Bool
deriving DecidableEq

/-- Row of `quiz.models.Answer`: the per-question state of one attempt,
holding the set of selected Option ids and the review flag. -/
structure Answer where
  id : Nat
  attempt_id : Nat
  question_id : Nat
  selected_options : Finset Nat
  is_flagged : Bool
deriving DecidableEq

/-- The relational store: one list per table, in insertion order. -/
structure DB where
  categories : List Category
  questions : List Question
  options : List MCOption
  attempts : List QuizAttempt
  answers : List Answer
deriving DecidableEq

/-- Error outcomes surfaced by the views: `NotFound` is a 404
(`get_object_or_404` miss), `NoQuestionsAvailable` the empty-pool abort
in `start_quiz`, and `DoesNotExist` the uncaught
`Option.objects.get(id=...)` exception in `question_view`'s POST path. -/
inductive QuizError where
  | NotFound
  | NoQuestionsAvailable
  | DoesNotExist
deriving DecidableEq

/-- `Answer.is_correct` (models.py:118-126): the set of the question's
correct options must equal the set of selected options exactly.  Python
compares sets of `Option` model objects, which Django equates by primary
key, so the comparison is between `Finset`s of option ids. -/
def Answer.is_correct (db : DB) (a : Answer) : Bool :=
  let correct_options :=
    ((db.options.filter (fun o => o.question_id == a.question_id && o.is_correct)).map
      (fun o => o.id)).toFinset
  let selected := a.selected_options
  decide (correct_options = selected)

/-- Modelled from the spec: "the set of Options on its Question with
`is_correct = true`", as a `Finset`-level image, for comparison with the
list-level computation inside `Answer.is_correct`. -/
def correctOptionSet (db : DB) (qid : Nat) : Finset Nat :=
  (db.options.toFinset.filter (fun o => o.question_id = qid ∧ o.is_correct = true)).image
    (fun o => o.id)

/-- Round a rational to the nearest integer, ties to even — the rounding
rule of Python's builtin `round`. -/
def roundHalfEvenInt (q : ℚ) : ℤ :=
  if q - (⌊q⌋ : ℚ) < 1 / 2 then ⌊q⌋
  else if 1 / 2 < q - (⌊q⌋ : ℚ) then ⌊q⌋ + 1
  else if ⌊q⌋ % 2 = 0 then ⌊q⌋ else ⌊q⌋ + 1

/-- Python's `round(q, 2)`: round half-to-even at two decimal places. -/
def round2 (q : ℚ) : ℚ :=
  ((roundHalfEvenInt (100 * q) : ℚ)) / 100

/-- `QuizAttempt.calculate_score` (models.py:85-93): count the Answers
actually stored for the attempt; `0` when there are none, otherwise the
percentage of correct answers rounded to two decimal places. -/
def QuizAttempt.calculate_score (db : DB) (t : QuizAttempt) : ℚ :=
  let answers := db.answers.filter (fun a => a.attempt_id == t.id)
  let total_answers := answers.length
  if total_answers = 0 then 0
  else
    let correct_answers := (answers.filter (fun a => a.is_correct db)).length
    round2 (((correct_answers : ℚ) / (total_answers : ℚ)) * 100)

/-- `QuizAttempt.submit_quiz` (models.py:95-100): set `completed_at`,
compute and store the score, and set `passed` by the inclusive
comparison `score >= passing_score`. -/
def QuizAttempt.submit_quiz (db : DB) (t : QuizAttempt) : QuizAttempt :=
  let s := t.calculate_score db
  { t with
    completed := true
    score := some s
    passed := decide ((t.passing_score : ℚ) ≤ s) }

/-- Python's `int()`: truncation toward zero, the coercion Django's
`IntegerField.get_prep_value` applies to a value being stored. -/
def intTrunc (q : ℚ) : ℤ :=
  if q < 0 then ⌈q⌉ else ⌊q⌋

/-- Write-back of a QuizAttempt row (`attempt.save()`): every column is
stored as assigned except `score`, whose `IntegerField` schema
(models.py:72) makes Django truncate the value to an integer. -/
def saveAttempt (t : QuizAttempt) : QuizAttempt :=
  { t with score := t.score.map (fun s => ((intTrunc s : ℤ) : ℚ)) }

/-- The `submit_quiz` view (views.py:180-190), POST path: fetch the
attempt scoped to the requesting user (404 otherwise), finalize it and
save the updated row — the save coercing the score column per the
`IntegerField` schema. -/
def submit (db : DB) (user_id attempt_id : Nat) : Except QuizError DB :=
  match db.attempts.find? (fun t => t.id == attempt_id && t.user_id == user_id) with
  | none => .error .NotFound
  | some att =>
    .ok { db with
      attempts := db.attempts.map (fun t =>
        if t.id == att.id then saveAttempt (att.submit_quiz db) else t) }

/-- Save one Answer row: replace the row with the given primary key
(`answer.save()` writes back by pk). -/
def updateAnswer (db : DB) (answer_id : Nat) (f : Answer → Answer) : DB :=
  { db with answers := db.answers.map (fun a => if a.id == answer_id then f a else a) }

/-- The loop body of `question_view`'s POST path (views.py:137-139): for
each posted option id, `Option.objects.get(id=option_id)` — any Option
row at all, with no check that it belongs to the Answer's Question — and
add it to the selection.  A missing id raises `DoesNotExist`, abandoning
the loop with the adds made so far kept. -/
def add_selected (pool : List MCOption) (selected : Finset Nat) :
    List Nat → Finset Nat × Option QuizError
  | [] => (selected, none)
  | oid :: rest =>
    match pool.find? (fun o => o.id == oid) with
    | none => (selected, some .DoesNotExist)
    | some o => add_selected pool (insert o.id selected) rest

/-- The `question_view` POST path (views.py:119-140), the spec's
`set_selection`: fetch the attempt scoped to the user and the answer
scoped to the attempt (404 otherwise), then `clear()` the selection and
add each posted option id in turn.  The returned `Option QuizError`
is the exception, if any, raised mid-loop; the returned `DB` holds
whatever state the loop reached (the clear and earlier adds persist). -/
def set_selection (db : DB) (user_id attempt_id answer_id : Nat)
    (option_ids : List Nat) : DB × Option QuizError :=
  match db.attempts.find? (fun t => t.id == attempt_id && t.user_id == user_id) with
  | none => (db, some .NotFound)
  | some att =>
    match db.answers.find? (fun a => a.id == answer_id && a.attempt_id == att.id) with
    | none => (db, some .NotFound)
    | some _ =>
      let (sel, err) := add_selected db.options ∅ option_ids
      (updateAnswer db answer_id (fun a => { a with selected_options := sel }), err)

/-- The `toggle_flag` view (views.py:157-164): fetch the Answer by id —
note: with no `user=request.user` scoping, unlike every other view —
flip `is_flagged`, save, and return the new value. -/
def toggle_flag (db : DB) (user_id answer_id : Nat) :
    Except QuizError (DB × Bool) :=
  match db.answers.find? (fun a => a.id == answer_id) with
  | none => .error .NotFound
  | some answer =>
    .ok (updateAnswer db answer_id (fun a => { a with is_flagged := !a.is_flagged }),
      !answer.is_flagged)

/-- `ordered_ids` of `question_view` (views.py:126-128): the ids of the
attempt's Answers, ordered by id ascending (`order_by('id')`). -/
def orderedIds (db : DB) (attempt_id : Nat) : List Nat :=
  ((db.answers.filter (fun a => a.attempt_id == attempt_id)).map (fun a => a.id)).insertionSort
    (fun x y => x ≤ y)

/-- Navigation metadata computed by `question_view` (views.py:126-151). -/
structure NavInfo where
  prev_id : Option Nat
  next_id : Option Nat
  is_first : Bool
  is_last : Bool
deriving DecidableEq

/-- The `question_view` GET path (views.py:119-154), the spec's
`get_answer`: fetch the attempt scoped to the user and the answer scoped
to the attempt (404 otherwise), then locate the answer's position in the
id-ordered sequence and derive previous/next ids and first/last flags. -/
def question_view_get (db : DB) (user_id attempt_id answer_id : Nat) :
    Except QuizError NavInfo :=
  match db.attempts.find? (fun t => t.id == attempt_id && t.user_id == user_id) with
  | none => .error .NotFound
  | some att =>
    match db.answers.find? (fun a => a.id == answer_id && a.attempt_id == att.id) with
    | none => .error .NotFound
    | some answer =>
      let ordered_ids := orderedIds db att.id
      let idx := ordered_ids.indexOf answer.id
      let prev_id := if 0 < idx then ordered_ids[idx - 1]? else none
      let next_id := if idx < ordered_ids.length - 1 then ordered_ids[idx + 1]? else none
      .ok { prev_id := prev_id, next_id := next_id,
            is_first := decide (idx = 0),
            is_last := decide (idx = ordered_ids.length - 1) }

/-- The eligible pool of `start_quiz` (views.py:60-63): the category's
questions that are not soft-deleted, in storage order. -/
def eligible (db : DB) (category_id : Nat) : List Question :=
  db.questions.filter (fun q => q.category_id == category_id && !q.is_deleted)

/-- Fresh primary key for a new QuizAttempt row (auto-increment). -/
def nextAttemptId (db : DB) : Nat :=
  (db.attempts.map (fun t => t.id)).foldr max 0 + 1

/-- Fresh primary key for the first new Answer row (auto-increment). -/
def nextAnswerId (db : DB) : Nat :=
  (db.answers.map (fun a => a.id)).foldr max 0 + 1

/-- The Answer-creation loop of `start_quiz` (views.py:81-85): one
Answer per selected question, in loop order, with consecutive fresh ids,
empty selection and the `is_flagged = False` default. -/
def buildAnswers (base attempt_id : Nat) : List Question → List Answer
  | [] => []
  | q :: rest =>
    { id := base, attempt_id := attempt_id, question_id := q.id,
      selected_options := ∅, is_flagged := false } :: buildAnswers (base + 1) attempt_id rest

/-- The guarantee `random.sample(pool, n)` provides: `n` picks, pairwise
distinct (sampling without replacement), all drawn from the pool.  Which
subset comes back is random; `start_quiz` takes the sampler as a
function parameter and this predicate captures its contract. -/
def SampleSpec (pool : List Question) (n : Nat) (chosen : List Question) : Prop :=
  chosen.length = n ∧ chosen.Nodup ∧ ∀ q ∈ chosen, q ∈ pool

/-- The `start_quiz` view (views.py:54-87), the spec's `start_attempt`:
look up the category (404 otherwise), collect the eligible questions,
abort with `NoQuestionsAvailable` when there are none; otherwise sample
`min 10 k` questions, create the attempt row (with the model defaults
`passing_score = 70`, `time_limit = 30`, null score, `passed = False`)
and one empty Answer per sampled question.  Returns the new store and
the new attempt's id. -/
def start_quiz (db : DB) (user_id category_id : Nat)
    (sample : List Question → Nat → List Question) : Except QuizError (DB × Nat) :=
  match db.categories.find? (fun c => c.id == category_id) with
  | none => .error .NotFound
  | some cat =>
    let all_questions := eligible db cat.id
    if all_questions.length = 0 then .error .NoQuestionsAvailable
    else
      let num_questions := min 10 all_questions.length
      let selected_questions := sample all_questions num_questions
      let attempt_id := nextAttemptId db
      let att : QuizAttempt :=
        { id := attempt_id, user_id := user_id, category_id := cat.id,
          total_questions := num_questions, passing_score := 70, time_limit := 30,
          score := none, passed := false, completed := false }
      .ok ({ db with
              attempts := db.attempts ++ [att],
              answers := db.answers ++ buildAnswers (nextAnswerId db) attempt_id selected_questions },
            attempt_id)

/-- Replace the `question_type` of one Question row, leaving everything
else in the store untouched (used to state that grading never reads the
type). -/
def setQuestionType (db : DB) (qid : Nat) (ty : String) : DB :=
  { db with questions := db.questions.map (fun q =>
      if q.id == qid then { q with question_type := ty } else q) }

/-! ### Concrete stores used by the witnesses -/

/-- Database for the C10 witness: question 1 has two options, neither
marked correct; answer 1 has an empty selection. -/
def dbNoCorrect : DB :=
  ⟨[⟨1, "Math"⟩],
   [⟨1, 1, "single", false⟩],
   [⟨1, 1, false⟩, ⟨2, 1, false⟩],
   [⟨1, 1, 1, 1, 70, 30, none, false, false⟩],
   [⟨1, 1, 1, ∅, false⟩]⟩

/-- The untouched answer of `dbNoCorrect`. -/
def ansNoCorrect : Answer := ⟨1, 1, 1, ∅, false⟩

/-- Database for the C9 witness: one answer, initially unflagged. -/
def dbFlag : DB :=
  ⟨[⟨1, "Math"⟩],
   [⟨1, 1, "single", false⟩],
   [⟨1, 1, true⟩],
   [⟨1, 1, 1, 1, 70, 30, none, false, false⟩],
   [⟨1, 1, 1, ∅, false⟩]⟩

/-- The answer of `dbFlag` before any toggle. -/
def ansFlag : Answer := ⟨1, 1, 1, ∅, false⟩

/-- Database used to exercise `set_selection` and `toggle_flag`:
user 1 owns attempt 1 with answer 1 on question 1 (options 1 and 2);
question 2 owns option 3.  Answer 1 starts with option 1 selected. -/
def dbCross : DB :=
  ⟨[⟨1, "Math"⟩],
   [⟨1, 1, "single", false⟩, ⟨2, 1, "single", false⟩],
   [⟨1, 1, true⟩, ⟨2, 1, false⟩, ⟨3, 2, true⟩],
   [⟨1, 1, 1, 1, 70, 30, none, false, false⟩],
   [⟨1, 1, 1, {1}, false⟩]⟩

/-- The store of `dbCross` after user 2 — who owns nothing in it —
successfully toggles user 1's answer. -/
def dbCrossFlagged : DB :=
  ⟨[⟨1, "Math"⟩],
   [⟨1, 1, "single", false⟩, ⟨2, 1, "single", false⟩],
   [⟨1, 1, true⟩, ⟨2, 1, false⟩, ⟨3, 2, true⟩],
   [⟨1, 1, 1, 1, 70, 30, none, false, false⟩],
   [⟨1, 1, 1, {1}, true⟩]⟩

/-- Database for the C2 witness: attempt 1 of user 1 holds three
answers — one correct, one wrong, one untouched — so the exact
percentage is 100/3 and the stored score rounds to 33.33. -/
def dbScore : DB :=
  ⟨[⟨1, "Math"⟩],
   [⟨1, 1, "single", false⟩, ⟨2, 1, "single", false⟩, ⟨3, 1, "single", false⟩],
   [⟨1, 1, true⟩, ⟨2, 1, false⟩, ⟨3, 2, true⟩, ⟨4, 2, false⟩, ⟨5, 3, true⟩],
   [⟨1, 1, 1, 3, 70, 30, none, false, false⟩],
   [⟨1, 1, 1, {1}, false⟩, ⟨2, 1, 2, {4}, false⟩, ⟨3, 1, 3, ∅, false⟩]⟩

/-- The attempt row of `dbScore`. -/
def attScore : QuizAttempt := ⟨1, 1, 1, 3, 70, 30, none, false, false⟩

/-- Database for the C7 witness: attempt 1 of user 1 with
`passing_score = 75` and four answers, three of them correct, so the
score lands exactly on the passing threshold. -/
def dbPass : DB :=
  ⟨[⟨1, "Math"⟩],
   [⟨1, 1, "single", false⟩, ⟨2, 1, "single", false⟩, ⟨3, 1, "single", false⟩,
    ⟨4, 1, "single", false⟩],
   [⟨1, 1, true⟩, ⟨2, 2, true⟩, ⟨3, 3, true⟩, ⟨4, 4, true⟩, ⟨5, 4, false⟩],
   [⟨1, 1, 1, 4, 75, 30, none, false, false⟩],
   [⟨1, 1, 1, {1}, false⟩, ⟨2, 1, 2, {2}, false⟩, ⟨3, 1, 3, {3}, false⟩,
    ⟨4, 1, 4, {5}, false⟩]⟩

/-- The attempt row of `dbPass`. -/
def attPass : QuizAttempt := ⟨1, 1, 1, 4, 75, 30, none, false, false⟩

/-- The ids of an attempt's Answers in storage (= insertion) order.
With auto-increment primary keys the stored order is ascending in id,
which is the hypothesis under which `orderedIds` reproduces it. -/
def insertionOrderIds (db : DB) (attempt_id : Nat) : List Nat :=
  (db.answers.filter (fun a => a.attempt_id == attempt_id)).map (fun a => a.id)

/-- Database for the C8 witness: attempt 1 of user 1 with three answers
inserted with ids 5, 6, 7. -/
def dbNav : DB :=
  ⟨[⟨1, "Math"⟩],
   [⟨1, 1, "single", false⟩, ⟨2, 1, "single", false⟩, ⟨3, 1, "single", false⟩],
   [⟨1, 1, true⟩, ⟨2, 2, true⟩, ⟨3, 3, true⟩],
   [⟨1, 1, 1, 3, 70, 30, none, false, false⟩],
   [⟨5, 1, 1, ∅, false⟩, ⟨6, 1, 2, ∅, false⟩, ⟨7, 1, 3, ∅, false⟩]⟩

/-- The attempt row of `dbNav`. -/
def attNav : QuizAttempt := ⟨1, 1, 1, 3, 70, 30, none, false, false⟩

/-- Database for the C6 witness: category 1 exists but its only
question is soft-deleted, so the eligible pool is empty. -/
def dbEmpty : DB :=
  ⟨[⟨1, "Empty"⟩],
   [⟨1, 1, "single", true⟩],
   [⟨1, 1, true⟩],
   [],
   []⟩

/-- Database for the C5 witness: category 1 owns active questions 1 and
2, question 3 belongs to category 2 and question 4 is soft-deleted, so
the eligible pool has size 2. -/
def dbStart : DB :=
  ⟨[⟨1, "Math"⟩, ⟨2, "Science"⟩],
   [⟨1, 1, "single", false⟩, ⟨2, 1, "multiple", false⟩, ⟨3, 2, "single", false⟩,
    ⟨4, 1, "single", true⟩],
   [⟨1, 1, true⟩, ⟨2, 2, true⟩],
   [],
   []⟩

/-! ### Helper lemmas -/

/-- The list-level computation of correct option ids inside
`Answer.is_correct` coincides with the set-level reading of the spec. -/
theorem correct_list_eq_correctOptionSet (db : DB) (qid : Nat) :
    ((db.options.filter (fun o => o.question_id == qid && o.is_correct)).map
      (fun o => o.id)).toFinset = correctOptionSet db qid := by
  ext x
  simp only [correctOptionSet, List.mem_toFinset, List.mem_map, List.mem_filter,
    Finset.mem_image, Finset.mem_filter, Bool.and_eq_true, beq_iff_eq]

/-! ### C1 -/

/-- C1: `grade_answer` (`Answer.is_correct`) returns true iff the set of
selected Option ids equals exactly the set of the Question's Options
with `is_correct = true`; the question's type (`single` vs `multiple`)
is never consulted — rewriting it changes nothing. -/
theorem grade_answer_exact_match (db : DB) (a : Answer) (ty : String) :
    (Answer.is_correct db a = true ↔
      a.selected_options = correctOptionSet db a.question_id)
    ∧ Answer.is_correct (setQuestionType db a.question_id ty) a = Answer.is_correct db a := by
  refine ⟨?_, rfl⟩
  unfold Answer.is_correct
  rw [decide_eq_true_iff, correct_list_eq_correctOptionSet]
  exact eq_comm

/-! ### C10 -/

/-- C10: when no Option of the Answer's Question is marked correct, the
grading code compares the selection against the empty set, so the Answer
grades correct exactly when nothing is selected. -/
theorem grade_answer_no_correct_options (db : DB) (a : Answer)
    (h : ∀ o ∈ db.options, o.question_id = a.question_id → o.is_correct = false) :
    Answer.is_correct db a = true ↔ a.selected_options = ∅ := by
  have hf : db.options.filter
      (fun o => o.question_id == a.question_id && o.is_correct) = [] := by
    rw [List.filter_eq_nil_iff]
    intro o ho
    simp only [Bool.and_eq_true, beq_iff_eq, not_and]
    intro hq
    simp [h o ho hq]
  unfold Answer.is_correct
  rw [hf]
  simp [eq_comm]

/-- Witness for C10: on a question with no correct option, the untouched
(empty-selection) answer grades as correct. -/
theorem grade_answer_no_correct_options_witness :
    (∀ o ∈ dbNoCorrect.options, o.question_id = ansNoCorrect.question_id →
      o.is_correct = false)
    ∧ (Answer.is_correct dbNoCorrect ansNoCorrect = true ↔
        ansNoCorrect.selected_options = ∅)
    ∧ Answer.is_correct dbNoCorrect ansNoCorrect = true :=
  ⟨by decide, grade_answer_no_correct_options dbNoCorrect ansNoCorrect (by decide),
   by decide⟩

/-! ### C9 -/

/-- Saving an id-preserving per-row edit commutes with the primary-key
lookup. -/
theorem find?_map_idpreserving (l : List Answer) (i : Nat) (f : Answer → Answer)
    (hf : ∀ a, (f a).id = a.id) :
    (l.map (fun a => if a.id == i then f a else a)).find? (fun a => a.id == i)
      = (l.find? (fun a => a.id == i)).map (fun a => if a.id == i then f a else a) := by
  rw [List.find?_map]
  have hcomp : ((fun a : Answer => a.id == i) ∘
      (fun a => if a.id == i then f a else a)) = fun a : Answer => a.id == i := by
    funext a
    simp only [Function.comp]
    by_cases hc : a.id = i
    · simp [hc, hf]
    · simp [hc]
  rw [hcomp]

/-- C9: `toggle_flag` flips `is_flagged`, returns the new value, and is
its own inverse — a second call returns the original value and restores
the store exactly. -/
theorem toggle_flag_involution (db : DB) (uid answer_id : Nat) (ans : Answer)
    (h : db.answers.find? (fun a => a.id == answer_id) = some ans) :
    toggle_flag db uid answer_id
      = .ok (updateAnswer db answer_id (fun a => { a with is_flagged := !a.is_flagged }),
          !ans.is_flagged)
    ∧ (updateAnswer db answer_id
        (fun a => { a with is_flagged := !a.is_flagged })).answers.find?
          (fun a => a.id == answer_id) = some { ans with is_flagged := !ans.is_flagged }
    ∧ toggle_flag
        (updateAnswer db answer_id (fun a => { a with is_flagged := !a.is_flagged }))
        uid answer_id
      = .ok (db, ans.is_flagged) := by
  have hid : ans.id = answer_id := by
    have := List.find?_some h
    simpa using this
  have hfind2 : (updateAnswer db answer_id
      (fun a => { a with is_flagged := !a.is_flagged })).answers.find?
        (fun a => a.id == answer_id)
      = some { ans with is_flagged := !ans.is_flagged } := by
    show (db.answers.map _).find? _ = _
    rw [find?_map_idpreserving db.answers answer_id
      (fun a => { a with is_flagged := !a.is_flagged }) (fun a => rfl), h]
    simp [hid]
  refine ⟨by simp [toggle_flag, h], hfind2, ?_⟩
  rw [toggle_flag, hfind2]
  have hdb : updateAnswer
      (updateAnswer db answer_id (fun a => { a with is_flagged := !a.is_flagged }))
      answer_id (fun a => { a with is_flagged := !a.is_flagged }) = db := by
    show ({ db with answers := _ } : DB) = db
    have : ((db.answers.map (fun a =>
        if a.id == answer_id then { a with is_flagged := !a.is_flagged } else a)).map
          (fun a => if a.id == answer_id then { a with is_flagged := !a.is_flagged } else a))
        = db.answers := by
      rw [List.map_map]
      apply List.map_id''
      intro a
      by_cases hc : (a.id == answer_id) = true <;> simp [Function.comp, hc]
    simp only [updateAnswer] at this ⊢
    rw [this]
  rw [hdb]
  simp

/-- Witness for C9: toggling answer 1 of `dbFlag` returns `true`, stores
the flipped flag, and a second toggle returns `false` and restores the
original store. -/
theorem toggle_flag_involution_witness :
    dbFlag.answers.find? (fun a => a.id == 1) = some ansFlag
    ∧ (toggle_flag dbFlag 1 1
        = .ok (updateAnswer dbFlag 1 (fun a => { a with is_flagged := !a.is_flagged }),
            !ansFlag.is_flagged)
      ∧ (updateAnswer dbFlag 1
          (fun a => { a with is_flagged := !a.is_flagged })).answers.find?
            (fun a => a.id == 1) = some { ansFlag with is_flagged := !ansFlag.is_flagged }
      ∧ toggle_flag
          (updateAnswer dbFlag 1 (fun a => { a with is_flagged := !a.is_flagged })) 1 1
        = .ok (dbFlag, ansFlag.is_flagged)) :=
  ⟨by decide, toggle_flag_involution dbFlag 1 1 ansFlag (by decide)⟩

/-! ### C3 -/

/-- Counterexample to C3: posting option 3 — which belongs to question
2, not to answer 1's question 1 — raises no error and replaces answer
1's prior selection {1} with {3}.  The view performs no ownership check
on the posted option ids. -/
theorem set_selection_cross_question_accepted :
    dbCross.options.find? (fun o => o.id == 3) = some ⟨3, 2, true⟩
    ∧ (dbCross.answers.find? (fun a => a.id == 1)).map (fun a => a.question_id) = some 1
    ∧ (dbCross.answers.find? (fun a => a.id == 1)).map (fun a => a.selected_options)
        = some {1}
    ∧ (set_selection dbCross 1 1 1 [3]).2 = none
    ∧ ((set_selection dbCross 1 1 1 [3]).1.answers.find? (fun a => a.id == 1)).map
        (fun a => a.selected_options) = some {3} := by
  refine ⟨rfl, rfl, ?_, rfl, ?_⟩ <;> decide

/-- Unfolding the add-loop of `question_view`'s POST path: the ids up to
the first one with no Option row anywhere get inserted; a missing id
aborts the loop with `DoesNotExist`, keeping the earlier inserts. -/
theorem add_selected_eq (pool : List MCOption) (s : Finset Nat) (ids : List Nat) :
    add_selected pool s ids
      = (s ∪ (ids.takeWhile
            (fun oid => (pool.find? (fun o => o.id == oid)).isSome)).toFinset,
         if ids.all (fun oid => (pool.find? (fun o => o.id == oid)).isSome) then none
         else some .DoesNotExist) := by
  induction ids generalizing s with
  | nil => simp [add_selected]
  | cons oid rest ih =>
    cases hfind : pool.find? (fun o => o.id == oid) with
    | none =>
      rw [add_selected]
      simp [hfind]
    | some o =>
      have ho : o.id = oid := by
        have := List.find?_some hfind
        simpa using this
      rw [add_selected]
      simp only [hfind]
      rw [ih (insert o.id s), ho]
      have htw : List.takeWhile
            (fun oid => (pool.find? (fun o => o.id == oid)).isSome) (oid :: rest)
          = oid :: List.takeWhile
              (fun oid => (pool.find? (fun o => o.id == oid)).isSome) rest := by
        rw [List.takeWhile_cons]
        simp [hfind]
      rw [htw]
      have hall : ((oid :: rest).all
            fun oid => (List.find? (fun o => o.id == oid) pool).isSome)
          = (rest.all fun oid => (List.find? (fun o => o.id == oid) pool).isSome) := by
        simp [hfind]
      rw [hall]
      simp only [List.toFinset_cons]
      rw [Finset.insert_union, Finset.union_insert]

/-- C3 as amended: the POST path of `question_view` validates only that
each posted option id has some Option row — not that it belongs to the
answer's question.  It clears the selection first; the stored selection
becomes the posted ids up to the first nonexistent one, and a
nonexistent id raises `DoesNotExist` with that partial state kept. -/
theorem set_selection_amended_spec (db : DB) (uid aid ansid : Nat) (ids : List Nat)
    (att : QuizAttempt) (ans : Answer)
    (hatt : db.attempts.find? (fun t => t.id == aid && t.user_id == uid) = some att)
    (hans : db.answers.find? (fun a => a.id == ansid && a.attempt_id == att.id)
      = some ans) :
    (set_selection db uid aid ansid ids).2
      = (if ids.all (fun oid => (db.options.find? (fun o => o.id == oid)).isSome)
         then none else some .DoesNotExist)
    ∧ (set_selection db uid aid ansid ids).1
      = updateAnswer db ansid (fun a =>
          { a with selected_options :=
              (ids.takeWhile
                (fun oid => (db.options.find? (fun o => o.id == oid)).isSome)).toFinset }) := by
  simp [set_selection, hatt, hans, add_selected_eq]

/-- Witness for the amended C3: posting ids `[2, 99, 1]` on `dbCross` —
option 2 exists, 99 does not — clears the prior selection {1}, adds
option 2, then aborts with `DoesNotExist`, leaving the partial selection
{2} stored. -/
theorem set_selection_amended_witness :
    dbCross.attempts.find? (fun t => t.id == 1 && t.user_id == 1)
      = some ⟨1, 1, 1, 1, 70, 30, none, false, false⟩
    ∧ dbCross.answers.find? (fun a => a.id == 1 && a.attempt_id == 1)
      = some ⟨1, 1, 1, {1}, false⟩
    ∧ ((set_selection dbCross 1 1 1 [2, 99, 1]).2
        = (if [2, 99, 1].all
              (fun oid => (dbCross.options.find? (fun o => o.id == oid)).isSome)
           then none else some .DoesNotExist)
      ∧ (set_selection dbCross 1 1 1 [2, 99, 1]).1
        = updateAnswer dbCross 1 (fun a =>
            { a with selected_options :=
                ([2, 99, 1].takeWhile
                  (fun oid =>
                    (dbCross.options.find? (fun o => o.id == oid)).isSome)).toFinset }))
    ∧ (set_selection dbCross 1 1 1 [2, 99, 1]).2 = some .DoesNotExist
    ∧ ((set_selection dbCross 1 1 1 [2, 99, 1]).1.answers.find?
        (fun a => a.id == 1)).map (fun a => a.selected_options) = some {2} :=
  ⟨by decide, by decide,
   set_selection_amended_spec dbCross 1 1 1 [2, 99, 1]
     ⟨1, 1, 1, 1, 70, 30, none, false, false⟩ ⟨1, 1, 1, {1}, false⟩
     (by decide) (by decide),
   by decide, by decide⟩

/-! ### C4 -/

/-- C4 fails on `toggle_flag` (views.py:157-164): the view fetches the
Answer without scoping it to the requesting user, so user 2 toggling
user 1's answer 1 succeeds and mutates it instead of failing with
`NotFound`.  (Every other operation does scope by user.) -/
theorem toggle_flag_ignores_ownership :
    (∀ t ∈ dbCross.attempts, t.user_id = 1)
    ∧ (∀ a ∈ dbCross.answers, a.attempt_id = 1)
    ∧ toggle_flag dbCross 2 1 ≠ .error .NotFound
    ∧ toggle_flag dbCross 2 1 = .ok (dbCrossFlagged, true) := by
  have h4 : toggle_flag dbCross 2 1 = .ok (dbCrossFlagged, true) := rfl
  refine ⟨by decide, by decide, ?_, h4⟩
  rw [h4]
  simp

/-! ### C2 -/

/-- `roundHalfEvenInt` really rounds to a nearest integer: it is never
more than one half away from its argument. -/
theorem abs_roundHalfEvenInt_sub_le (q : ℚ) :
    |(roundHalfEvenInt q : ℚ) - q| ≤ 1 / 2 := by
  have h1 : (⌊q⌋ : ℚ) ≤ q := Int.floor_le q
  have h2 : q < (⌊q⌋ : ℚ) + 1 := Int.lt_floor_add_one q
  unfold roundHalfEvenInt
  by_cases hlt : q - (⌊q⌋ : ℚ) < 1 / 2
  · rw [if_pos hlt, abs_le]
    constructor <;> linarith
  · rw [if_neg hlt]
    by_cases hgt : 1 / 2 < q - (⌊q⌋ : ℚ)
    · rw [if_pos hgt]
      push_cast
      rw [abs_le]
      constructor <;> linarith
    · rw [if_neg hgt]
      have heq : q - (⌊q⌋ : ℚ) = 1 / 2 := le_antisymm (not_lt.mp hgt) (not_lt.mp hlt)
      by_cases hm : ⌊q⌋ % 2 = 0
      · rw [if_pos hm, abs_le]
        constructor <;> linarith
      · rw [if_neg hm]
        push_cast
        rw [abs_le]
        constructor <;> linarith

/-- Rounding at two decimal places moves a rational by at most 1/200. -/
theorem abs_round2_sub_le (p : ℚ) : |round2 p - p| ≤ 1 / 200 := by
  have h := abs_roundHalfEvenInt_sub_le (100 * p)
  unfold round2
  have heq : (roundHalfEvenInt (100 * p) : ℚ) / 100 - p
      = ((roundHalfEvenInt (100 * p) : ℚ) - 100 * p) / 100 := by ring
  rw [heq, abs_div]
  have habs : |(100 : ℚ)| = 100 := by norm_num
  rw [habs, div_le_iff₀ (by norm_num : (0 : ℚ) < 100)]
  linarith

/-- Evaluation of the score computation on `dbScore`: three stored
answers, one correct, so `calculate_score` returns
`round(100/3, 2) = 33.33`. -/
theorem dbScore_calculate_score :
    attScore.calculate_score dbScore = (3333 : ℚ) / 100 := by
  have hT : (dbScore.answers.filter (fun a => a.attempt_id == attScore.id)).length = 3 := by
    decide
  have hc : ((dbScore.answers.filter (fun a => a.attempt_id == attScore.id)).filter
      (fun a => a.is_correct dbScore)).length = 1 := by decide
  have hs : attScore.calculate_score dbScore
      = if (dbScore.answers.filter (fun a => a.attempt_id == attScore.id)).length = 0
        then (0 : ℚ)
        else round2
          ((((dbScore.answers.filter (fun a => a.attempt_id == attScore.id)).filter
              (fun a => a.is_correct dbScore)).length : ℚ)
            / ((dbScore.answers.filter (fun a => a.attempt_id == attScore.id)).length : ℚ)
            * 100) := rfl
  rw [hs, hT, hc]
  have harg : ((1 : ℕ) : ℚ) / ((3 : ℕ) : ℚ) * 100 = 10000 / 300 := by
    push_cast
    norm_num
  have hfloor : ⌊(100 : ℚ) * (10000 / 300)⌋ = 3333 := by
    rw [Int.floor_eq_iff]
    constructor <;> norm_num
  have hrhe : roundHalfEvenInt ((100 : ℚ) * (10000 / 300)) = 3333 := by
    unfold roundHalfEvenInt
    rw [hfloor]
    have hcond : (100 : ℚ) * (10000 / 300) - ((3333 : ℤ) : ℚ) < 1 / 2 := by norm_num
    rw [if_pos hcond]
  rw [if_neg (by norm_num), harg]
  unfold round2
  rw [hrhe]
  norm_num

/-- Truncating 33.33 toward zero gives 33. -/
theorem intTrunc_3333_div_100 : intTrunc ((3333 : ℚ) / 100) = 33 := by
  unfold intTrunc
  rw [if_neg (by norm_num : ¬ ((3333 : ℚ) / 100 < 0))]
  rw [Int.floor_eq_iff]
  constructor <;> norm_num

/-- Counterexample to C2 as stated: on `dbScore` (3 stored answers, 1
correct) `calculate_score` produces the two-decimal value 33.33 and
`submit_quiz` assigns it in memory, but the row `submit` persists holds
score 33 — the `IntegerField` column truncates on write-back — and
33 ≠ 33.33, so the rounded score is not what is persisted. -/
theorem submit_score_truncation_cex :
    attScore.calculate_score dbScore = (3333 : ℚ) / 100
    ∧ (attScore.submit_quiz dbScore).score = some ((3333 : ℚ) / 100)
    ∧ submit dbScore 1 1 = .ok { dbScore with
        attempts := [saveAttempt (attScore.submit_quiz dbScore)] }
    ∧ (saveAttempt (attScore.submit_quiz dbScore)).score = some ((33 : ℚ))
    ∧ some ((33 : ℚ)) ≠ some ((3333 : ℚ) / 100) := by
  refine ⟨dbScore_calculate_score, ?_, ?_, ?_, ?_⟩
  · show some (attScore.calculate_score dbScore) = some ((3333 : ℚ) / 100)
    rw [dbScore_calculate_score]
  · rfl
  · show some ((intTrunc (attScore.calculate_score dbScore) : ℤ) : ℚ) = some ((33 : ℚ))
    rw [dbScore_calculate_score, intTrunc_3333_div_100]
    norm_num
  · intro h
    have h33 := Option.some.inj h
    norm_num at h33

/-- C2 as amended: submission computes the score from the Answers
actually stored: `T` answers for the attempt, `c` of them graded
correct; the computed score is `0` when `T = 0` and otherwise
`100 * c / T` rounded at two decimal places by the deterministic
half-to-even rule (so it sits within 1/200 of the exact percentage),
independent of the cached `total_questions`.  This value is what is
assigned to the finalized attempt and compared for `passed`, but the
persisted row's `IntegerField` score column holds its truncation toward
zero to an integer. -/
theorem submit_score_spec (db : DB) (uid aid : Nat) (att : QuizAttempt)
    (hatt : db.attempts.find? (fun t => t.id == aid && t.user_id == uid) = some att) :
    ∃ s : ℚ,
      (att.submit_quiz db).score = some s
      ∧ submit db uid aid = .ok { db with attempts := db.attempts.map (fun t => if t.id == att.id then saveAttempt (att.submit_quiz db) else t) }
      ∧ s = (if (db.answers.filter (fun a => a.attempt_id == att.id)).length = 0 then 0
             else round2
               ((((db.answers.filter (fun a => a.attempt_id == att.id)).filter
                   (fun a => a.is_correct db)).length : ℚ)
                 / ((db.answers.filter (fun a => a.attempt_id == att.id)).length : ℚ)
                 * 100))
      ∧ (0 < (db.answers.filter (fun a => a.attempt_id == att.id)).length →
          |s - (((db.answers.filter (fun a => a.attempt_id == att.id)).filter
                  (fun a => a.is_correct db)).length : ℚ)
               / ((db.answers.filter (fun a => a.attempt_id == att.id)).length : ℚ)
               * 100|
            ≤ 1 / 200)
      ∧ (∀ n : Nat, QuizAttempt.calculate_score db { att with total_questions := n }
          = att.calculate_score db)
      ∧ (saveAttempt (att.submit_quiz db)).score = some ((intTrunc s : ℤ) : ℚ) := by
  refine ⟨att.calculate_score db, rfl, by simp [submit, hatt], rfl, ?_, fun n => rfl, rfl⟩
  intro hT
  have hs : att.calculate_score db
      = if (db.answers.filter (fun a => a.attempt_id == att.id)).length = 0 then (0 : ℚ)
        else round2
          ((((db.answers.filter (fun a => a.attempt_id == att.id)).filter
              (fun a => a.is_correct db)).length : ℚ)
            / ((db.answers.filter (fun a => a.attempt_id == att.id)).length : ℚ)
            * 100) := rfl
  rw [hs, if_neg (Nat.pos_iff_ne_zero.mp hT)]
  exact abs_round2_sub_le _

/-- Witness for the amended C2: on `dbScore` the computed score is
`round(100/3, 2) = 33.33` and the persisted column holds its
truncation 33. -/
theorem submit_score_spec_witness :
    dbScore.attempts.find? (fun t => t.id == 1 && t.user_id == 1) = some attScore
    ∧ (∃ s : ℚ,
        (attScore.submit_quiz dbScore).score = some s
        ∧ submit dbScore 1 1 = .ok { dbScore with attempts := dbScore.attempts.map (fun t => if t.id == attScore.id then saveAttempt (attScore.submit_quiz dbScore) else t) }
        ∧ s = (if (dbScore.answers.filter (fun a => a.attempt_id == attScore.id)).length = 0
               then 0
               else round2
                 ((((dbScore.answers.filter (fun a => a.attempt_id == attScore.id)).filter
                     (fun a => a.is_correct dbScore)).length : ℚ)
                   / ((dbScore.answers.filter
                       (fun a => a.attempt_id == attScore.id)).length : ℚ)
                   * 100))
        ∧ (0 < (dbScore.answers.filter (fun a => a.attempt_id == attScore.id)).length →
            |s - (((dbScore.answers.filter (fun a => a.attempt_id == attScore.id)).filter
                    (fun a => a.is_correct dbScore)).length : ℚ)
                 / ((dbScore.answers.filter
                     (fun a => a.attempt_id == attScore.id)).length : ℚ)
                 * 100|
              ≤ 1 / 200)
        ∧ (∀ n : Nat, QuizAttempt.calculate_score dbScore { attScore with total_questions := n }
            = attScore.calculate_score dbScore)
        ∧ (saveAttempt (attScore.submit_quiz dbScore)).score = some ((intTrunc s : ℤ) : ℚ))
    ∧ (attScore.submit_quiz dbScore).score = some ((3333 : ℚ) / 100)
    ∧ (saveAttempt (attScore.submit_quiz dbScore)).score = some ((33 : ℚ)) := by
  refine ⟨by decide, submit_score_spec dbScore 1 1 attScore (by decide), ?_, ?_⟩
  · show some (attScore.calculate_score dbScore) = some ((3333 : ℚ) / 100)
    rw [dbScore_calculate_score]
  · show some ((intTrunc (attScore.calculate_score dbScore) : ℤ) : ℚ) = some ((33 : ℚ))
    rw [dbScore_calculate_score, intTrunc_3333_div_100]
    norm_num

/-! ### C7 -/

/-- C7: the finalized attempt's `passed` flag holds exactly when the
computed (pre-truncation) score reaches `passing_score`, with the
boundary inclusive; the write-back coerces only the score column, so
the persisted row carries that same `passed` flag and completion
mark. -/
theorem submit_passed_spec (db : DB) (uid aid : Nat) (att : QuizAttempt)
    (hatt : db.attempts.find? (fun t => t.id == aid && t.user_id == uid) = some att) :
    ∃ s : ℚ,
      (att.submit_quiz db).score = some s
      ∧ ((att.submit_quiz db).passed = true ↔ (att.passing_score : ℚ) ≤ s)
      ∧ (att.submit_quiz db).completed = true
      ∧ (saveAttempt (att.submit_quiz db)).passed = (att.submit_quiz db).passed
      ∧ (saveAttempt (att.submit_quiz db)).completed = true
      ∧ submit db uid aid = .ok { db with attempts := db.attempts.map (fun t => if t.id == att.id then saveAttempt (att.submit_quiz db) else t) } := by
  refine ⟨att.calculate_score db, rfl, ?_, rfl, rfl, rfl, by simp [submit, hatt]⟩
  show decide ((att.passing_score : ℚ) ≤ att.calculate_score db) = true ↔ _
  exact decide_eq_true_iff

/-- Witness for C7: score 75.0 against `passing_score = 75` — the
inclusive boundary — yields `passed = true`. -/
theorem submit_passed_spec_witness :
    dbPass.attempts.find? (fun t => t.id == 1 && t.user_id == 1) = some attPass
    ∧ (∃ s : ℚ,
        (attPass.submit_quiz dbPass).score = some s
        ∧ ((attPass.submit_quiz dbPass).passed = true ↔ (attPass.passing_score : ℚ) ≤ s)
        ∧ (attPass.submit_quiz dbPass).completed = true
        ∧ (saveAttempt (attPass.submit_quiz dbPass)).passed = (attPass.submit_quiz dbPass).passed
        ∧ (saveAttempt (attPass.submit_quiz dbPass)).completed = true
        ∧ submit dbPass 1 1 = .ok { dbPass with attempts := dbPass.attempts.map (fun t => if t.id == attPass.id then saveAttempt (attPass.submit_quiz dbPass) else t) })
    ∧ (attPass.submit_quiz dbPass).score = some ((75 : ℚ))
    ∧ (attPass.submit_quiz dbPass).passed = true := by
  have hT : (dbPass.answers.filter (fun a => a.attempt_id == attPass.id)).length = 4 := by
    decide
  have hc : ((dbPass.answers.filter (fun a => a.attempt_id == attPass.id)).filter
      (fun a => a.is_correct dbPass)).length = 3 := by decide
  have hs : attPass.calculate_score dbPass
      = if (dbPass.answers.filter (fun a => a.attempt_id == attPass.id)).length = 0
        then (0 : ℚ)
        else round2
          ((((dbPass.answers.filter (fun a => a.attempt_id == attPass.id)).filter
              (fun a => a.is_correct dbPass)).length : ℚ)
            / ((dbPass.answers.filter (fun a => a.attempt_id == attPass.id)).length : ℚ)
            * 100) := rfl
  have hscore : attPass.calculate_score dbPass = 75 := by
    rw [hs, hT, hc, if_neg (by norm_num)]
    have harg : ((3 : ℕ) : ℚ) / ((4 : ℕ) : ℚ) * 100 = 75 := by
      push_cast
      norm_num
    rw [harg]
    have hfloor : ⌊(100 : ℚ) * 75⌋ = 7500 := by
      rw [Int.floor_eq_iff]
      constructor <;> norm_num
    have hrhe : roundHalfEvenInt ((100 : ℚ) * 75) = 7500 := by
      unfold roundHalfEvenInt
      rw [hfloor]
      have hcond : (100 : ℚ) * 75 - ((7500 : ℤ) : ℚ) < 1 / 2 := by norm_num
      rw [if_pos hcond]
    unfold round2
    rw [hrhe]
    norm_num
  refine ⟨by decide, submit_passed_spec dbPass 1 1 attPass (by decide), ?_, ?_⟩
  · show some (attPass.calculate_score dbPass) = some ((75 : ℚ))
    rw [hscore]
  · show decide ((attPass.passing_score : ℚ) ≤ attPass.calculate_score dbPass) = true
    rw [hscore, decide_eq_true_eq]
    show ((75 : ℤ) : ℚ) ≤ 75
    norm_num

/-! ### C8 -/

/-- C8: for an attempt whose stored Answer ids ascend in insertion order
(the auto-increment invariant), `question_view` computes the navigation
metadata from exactly that order: neighbouring ids for
`previous_id`/`next_id`, `none` at the boundaries, and first/last flags
from the position. -/
theorem question_view_nav_spec (db : DB) (uid aid : Nat) (att : QuizAttempt)
    (hatt : db.attempts.find? (fun t => t.id == aid && t.user_id == uid) = some att)
    (hsorted : (insertionOrderIds db att.id).Sorted (fun x y => x < y))
    (i : Nat) (hi : i < (insertionOrderIds db att.id).length) :
    question_view_get db uid aid ((insertionOrderIds db att.id).get ⟨i, hi⟩)
      = .ok { prev_id := if i = 0 then none else (insertionOrderIds db att.id)[i - 1]?,
              next_id := if i = (insertionOrderIds db att.id).length - 1 then none
                         else (insertionOrderIds db att.id)[i + 1]?,
              is_first := decide (i = 0),
              is_last := decide (i = (insertionOrderIds db att.id).length - 1) } := by
  have horder : orderedIds db att.id = insertionOrderIds db att.id :=
    List.Sorted.insertionSort_eq (hsorted.imp (fun h => le_of_lt h))
  have hnd : (insertionOrderIds db att.id).Nodup :=
    hsorted.imp (fun h => Nat.ne_of_lt h)
  have hmem : (insertionOrderIds db att.id).get ⟨i, hi⟩ ∈ insertionOrderIds db att.id :=
    List.get_mem _ _ _
  obtain ⟨a, hafilter, haid⟩ := List.mem_map.mp hmem
  obtain ⟨hamem, hap⟩ := List.mem_filter.mp hafilter
  have hfindsome : (db.answers.find? (fun b =>
      b.id == (insertionOrderIds db att.id).get ⟨i, hi⟩ && b.attempt_id == att.id)).isSome := by
    rw [List.find?_isSome]
    refine ⟨a, hamem, ?_⟩
    simp only [Bool.and_eq_true, beq_iff_eq]
    exact ⟨haid, by simpa using hap⟩
  obtain ⟨ans, hfind⟩ := Option.isSome_iff_exists.mp hfindsome
  have hansid : ans.id = (insertionOrderIds db att.id).get ⟨i, hi⟩ := by
    have := List.find?_some hfind
    simp only [Bool.and_eq_true, beq_iff_eq] at this
    exact this.1
  have hidx : (insertionOrderIds db att.id).indexOf
      ((insertionOrderIds db att.id).get ⟨i, hi⟩) = i := by
    have h := List.indexOf_getElem hnd i hi
    simpa [List.get_eq_getElem] using h
  simp only [question_view_get, hatt, hfind, horder, hansid, hidx]
  have hprev : (if 0 < i then (insertionOrderIds db att.id)[i - 1]? else none)
      = (if i = 0 then none else (insertionOrderIds db att.id)[i - 1]?) := by
    by_cases h0 : i = 0
    · simp [h0]
    · simp [h0, Nat.pos_of_ne_zero h0]
  have hnext : (if i < (insertionOrderIds db att.id).length - 1
        then (insertionOrderIds db att.id)[i + 1]? else none)
      = (if i = (insertionOrderIds db att.id).length - 1 then none
         else (insertionOrderIds db att.id)[i + 1]?) := by
    by_cases hl : i = (insertionOrderIds db att.id).length - 1
    · simp [hl]
    · have hlt : i < (insertionOrderIds db att.id).length - 1 := by omega
      simp [hl, hlt]
  rw [hprev, hnext]

/-- Witness for C8: with answers [5, 6, 7], answer 5 is first with next
6 and no previous; answer 7 is last with previous 6 and no next. -/
theorem question_view_nav_witness :
    dbNav.attempts.find? (fun t => t.id == 1 && t.user_id == 1) = some attNav
    ∧ (insertionOrderIds dbNav attNav.id).Sorted (fun x y => x < y)
    ∧ question_view_get dbNav 1 1 5
        = .ok { prev_id := none, next_id := some 6, is_first := true, is_last := false }
    ∧ question_view_get dbNav 1 1 7
        = .ok { prev_id := some 6, next_id := none, is_first := false, is_last := true } := by
  refine ⟨by decide, by decide, ?_, ?_⟩
  · have h := question_view_nav_spec dbNav 1 1 attNav (by decide) (by decide) 0 (by decide)
    simpa using h
  · have h := question_view_nav_spec dbNav 1 1 attNav (by decide) (by decide) 2 (by decide)
    simpa using h

/-! ### C6 -/

/-- C6: a category whose eligible pool is empty makes `start_quiz` abort
with `NoQuestionsAvailable`; the error return carries no new store, so
no Attempt and no Answers come into being. -/
theorem start_quiz_no_questions (db : DB) (uid cid : Nat)
    (sample : List Question → Nat → List Question) (cat : Category)
    (hcat : db.categories.find? (fun c => c.id == cid) = some cat)
    (hempty : eligible db cat.id = []) :
    start_quiz db uid cid sample = .error .NoQuestionsAvailable := by
  simp [start_quiz, hcat, hempty]

/-- Witness for C6: starting a quiz in the question-less category 1 of
`dbEmpty` fails with `NoQuestionsAvailable`. -/
theorem start_quiz_no_questions_witness :
    dbEmpty.categories.find? (fun c => c.id == 1) = some ⟨1, "Empty"⟩
    ∧ eligible dbEmpty 1 = []
    ∧ start_quiz dbEmpty 4 1 (fun pool n => pool.take n)
        = .error .NoQuestionsAvailable :=
  ⟨by decide, by decide,
   start_quiz_no_questions dbEmpty 4 1 (fun pool n => pool.take n) ⟨1, "Empty"⟩
     (by decide) (by decide)⟩

/-! ### C5 -/

/-- Every member of a list of naturals is bounded by its right max
fold. -/
theorem le_foldr_max (l : List Nat) : ∀ x ∈ l, x ≤ l.foldr max 0 := by
  induction l with
  | nil => intro x hx; cases hx
  | cons y ys ih =>
    intro x hx
    rcases List.mem_cons.mp hx with h | h
    · subst h
      exact le_max_left _ _
    · exact le_trans (ih x h) (le_max_right _ _)

/-- The auto-increment attempt id is fresh: no existing attempt row
carries it. -/
theorem nextAttemptId_fresh (db : DB) : ∀ t ∈ db.attempts, t.id ≠ nextAttemptId db := by
  intro t ht
  have hle : t.id ≤ (db.attempts.map (fun t => t.id)).foldr max 0 :=
    le_foldr_max _ _ (List.mem_map_of_mem _ ht)
  unfold nextAttemptId
  omega

/-- Shape of the Answer rows created by the `start_quiz` loop: one per
question, with the attempt's id, empty selection and unset flag, and
question ids taken from the sampled list in order. -/
theorem buildAnswers_props (aid : Nat) (qs : List Question) : ∀ b : Nat,
    (buildAnswers b aid qs).length = qs.length
    ∧ (buildAnswers b aid qs).map (fun a => a.question_id) = qs.map (fun q => q.id)
    ∧ ∀ a ∈ buildAnswers b aid qs,
        a.attempt_id = aid ∧ a.selected_options = ∅ ∧ a.is_flagged = false := by
  induction qs with
  | nil =>
    intro b
    refine ⟨rfl, rfl, ?_⟩
    intro a ha
    cases ha
  | cons q rest ih =>
    intro b
    refine ⟨by simp [buildAnswers, (ih (b + 1)).1], by simp [buildAnswers, (ih (b + 1)).2.1], ?_⟩
    intro a ha
    rcases List.mem_cons.mp ha with h | h
    · subst h
      exact ⟨rfl, rfl, rfl⟩
    · exact (ih (b + 1)).2.2 a h

/-- Referential integrity of the stored answers keeps the fresh attempt
id out of the answer table. -/
theorem answers_fresh (db : DB)
    (href : ∀ a ∈ db.answers, ∃ t ∈ db.attempts, a.attempt_id = t.id) :
    ∀ a ∈ db.answers, a.attempt_id ≠ nextAttemptId db := by
  intro a ha
  obtain ⟨t, ht, heq⟩ := href a ha
  rw [heq]
  exact nextAttemptId_fresh db t ht

/-- Filtering the post-creation answer table by the fresh attempt id
yields exactly the newly created rows. -/
theorem filter_new_answers (db : DB) (aid base : Nat) (qs : List Question)
    (hfresh : ∀ a ∈ db.answers, a.attempt_id ≠ aid) :
    (db.answers ++ buildAnswers base aid qs).filter (fun a => a.attempt_id == aid)
      = buildAnswers base aid qs := by
  rw [List.filter_append]
  have hold : db.answers.filter (fun a => a.attempt_id == aid) = [] := by
    rw [List.filter_eq_nil_iff]
    intro a ha
    simpa using hfresh a ha
  have hnew : (buildAnswers base aid qs).filter (fun a => a.attempt_id == aid)
      = buildAnswers base aid qs := by
    rw [List.filter_eq_self]
    intro a ha
    simpa using ((buildAnswers_props aid qs base).2.2 a ha).1
  rw [hold, hnew]
  rfl

/-- C5: with a nonempty eligible pool of size `k`, a store with unique
question ids and referentially intact answers, and a sampler meeting
`random.sample`'s contract, `start_quiz` creates one new Attempt with
`total_questions = min 10 k`, null score, `passed = false`, not
completed, plus exactly `min 10 k` child Answers for it, covering
pairwise-distinct questions, each with empty selection and unset flag. -/
theorem start_quiz_spec (db : DB) (uid cid : Nat)
    (sample : List Question → Nat → List Question) (cat : Category)
    (hcat : db.categories.find? (fun c => c.id == cid) = some cat)
    (hne : eligible db cat.id ≠ [])
    (hqids : (db.questions.map (fun q => q.id)).Nodup)
    (href : ∀ a ∈ db.answers, ∃ t ∈ db.attempts, a.attempt_id = t.id)
    (hs : SampleSpec (eligible db cat.id) (min 10 (eligible db cat.id).length)
        (sample (eligible db cat.id) (min 10 (eligible db cat.id).length))) :
    ∃ db' : DB,
      start_quiz db uid cid sample = .ok (db', nextAttemptId db)
      ∧ (db'.attempts.find? (fun t => t.id == nextAttemptId db)).map
          (fun t => (t.user_id, t.total_questions, t.score, t.passed, t.completed))
          = some (uid, min 10 (eligible db cat.id).length, none, false, false)
      ∧ (db'.answers.filter (fun a => a.attempt_id == nextAttemptId db)).length
          = min 10 (eligible db cat.id).length
      ∧ ((db'.answers.filter (fun a => a.attempt_id == nextAttemptId db)).map
          (fun a => a.question_id)).Nodup
      ∧ ∀ a ∈ db'.answers.filter (fun a => a.attempt_id == nextAttemptId db),
          a.selected_options = ∅ ∧ a.is_flagged = false := by
  have hlen : ¬ (eligible db cat.id).length = 0 := by
    simpa [List.length_eq_zero] using hne
  refine ⟨{ db with
      attempts := db.attempts ++
        [{ id := nextAttemptId db, user_id := uid, category_id := cat.id,
           total_questions := min 10 (eligible db cat.id).length, passing_score := 70,
           time_limit := 30, score := none, passed := false, completed := false }],
      answers := db.answers ++ buildAnswers (nextAnswerId db) (nextAttemptId db)
        (sample (eligible db cat.id) (min 10 (eligible db cat.id).length)) },
    ?_, ?_, ?_, ?_, ?_⟩
  · simp [start_quiz, hcat, hlen]
  · rw [List.find?_append]
    have hold : db.attempts.find? (fun t => t.id == nextAttemptId db) = none := by
      rw [List.find?_eq_none]
      intro t ht
      simpa using nextAttemptId_fresh db t ht
    rw [hold]
    simp
  · dsimp only
    rw [filter_new_answers db (nextAttemptId db) (nextAnswerId db)
        (sample (eligible db cat.id) (min 10 (eligible db cat.id).length))
        (answers_fresh db href),
      (buildAnswers_props (nextAttemptId db) _ (nextAnswerId db)).1]
    exact hs.1
  · dsimp only
    rw [filter_new_answers db (nextAttemptId db) (nextAnswerId db)
        (sample (eligible db cat.id) (min 10 (eligible db cat.id).length))
        (answers_fresh db href),
      (buildAnswers_props (nextAttemptId db) _ (nextAnswerId db)).2.1]
    have hsub : ((eligible db cat.id).map (fun q => q.id)).Sublist
        (db.questions.map (fun q => q.id)) :=
      (List.filter_sublist db.questions).map _
    have hpoolnd : ((eligible db cat.id).map (fun q => q.id)).Nodup :=
      List.Nodup.sublist hsub hqids
    have hinj := List.inj_on_of_nodup_map hpoolnd
    exact List.Nodup.map_on
      (fun x hx y hy h => hinj (hs.2.2 x hx) (hs.2.2 y hy) h) hs.2.1
  · dsimp only
    rw [filter_new_answers db (nextAttemptId db) (nextAnswerId db)
        (sample (eligible db cat.id) (min 10 (eligible db cat.id).length))
        (answers_fresh db href)]
    intro a ha
    exact ⟨((buildAnswers_props (nextAttemptId db) _ (nextAnswerId db)).2.2 a ha).2.1,
      ((buildAnswers_props (nextAttemptId db) _ (nextAnswerId db)).2.2 a ha).2.2⟩

/-- Witness for C5: sampling by prefix from the 2-question pool of
`dbStart` creates an attempt with `total_questions = 2` and two fresh
empty answers on distinct questions. -/
theorem start_quiz_spec_witness :
    dbStart.categories.find? (fun c => c.id == 1) = some ⟨1, "Math"⟩
    ∧ eligible dbStart 1 ≠ []
    ∧ (dbStart.questions.map (fun q => q.id)).Nodup
    ∧ (∀ a ∈ dbStart.answers, ∃ t ∈ dbStart.attempts, a.attempt_id = t.id)
    ∧ SampleSpec (eligible dbStart 1) (min 10 (eligible dbStart 1).length)
        ((fun pool n => pool.take n) (eligible dbStart 1)
          (min 10 (eligible dbStart 1).length))
    ∧ (∃ db' : DB,
        start_quiz dbStart 1 1 (fun pool n => pool.take n)
          = .ok (db', nextAttemptId dbStart)
        ∧ (db'.attempts.find? (fun t => t.id == nextAttemptId dbStart)).map
            (fun t => (t.user_id, t.total_questions, t.score, t.passed, t.completed))
            = some (1, min 10 (eligible dbStart 1).length, none, false, false)
        ∧ (db'.answers.filter (fun a => a.attempt_id == nextAttemptId dbStart)).length
            = min 10 (eligible dbStart 1).length
        ∧ ((db'.answers.filter (fun a => a.attempt_id == nextAttemptId dbStart)).map
            (fun a => a.question_id)).Nodup
        ∧ ∀ a ∈ db'.answers.filter (fun a => a.attempt_id == nextAttemptId dbStart),
            a.selected_options = ∅ ∧ a.is_flagged = false) :=
  ⟨by decide, by decide, by decide, by decide, ⟨by decide, by decide, by decide⟩,
   start_quiz_spec dbStart 1 1 (fun pool n => pool.take n) ⟨1, "Math"⟩
     (by decide) (by decide) (by decide) (by decide)
     ⟨by decide, by decide, by decide⟩⟩

end Quiz
